import Mathlib

/-!
Verification of the persistence layer (`StorageManager`, `src/modules/storage.py`)
and the cipher wrapper (`EncriptadorFernet`, `src/modules/encriptacion.py`) of the
ConversorAudioCripto repository, as a shallow embedding in Lean 4.

Modelling conventions:
* Python values appearing in this module's data (JSON documents, record dicts)
  are modelled by `PyVal`.  Strings are lists of Unicode code points
  (`List Nat`), bytes are lists of byte values (`List Nat`, each `< 256`),
  dicts are association lists keyed by Lean `String` (the keys in this code
  are ASCII literals).  JSON numbers occurring in the `id` field are integers.
* The backing file is modelled by `Disk`: missing, present-but-unparseable
  (`malformed`, which also covers a truncated/partial write), or holding a
  parsed JSON value (`stored`).
* Each write performed with `open(path, "w")` + `json.dump` is given an
  explicit outcome `WriteMode`: `ok` (the write succeeds and replaces the file
  content), `failOpen` (the `open` call itself raises, before the file is
  truncated, so the previous content remains), `failDump` (`open` succeeded and
  truncated the file, then `json.dump` failed partway, leaving unparseable
  content).  This reflects CPython file semantics: `open(path, "w")` truncates
  the file on success.
* Raising a Python exception is modelled by `Except.error` with a string
  abbreviating the exception; stateful functions return their result paired
  with the disk state after the call.
-/

/-- Python/JSON values used by the storage module: `None`, integers, text
strings (code points), byte strings, lists and dicts. -/
inductive PyVal where
  | none : PyVal
  | int (n : Int) : PyVal
  | str (s : List Nat) : PyVal
  | bytes (b : List Nat) : PyVal
  | list (xs : List PyVal) : PyVal
  | dict (kvs : List (String × PyVal)) : PyVal

/-- State of the backing JSON file. -/
inductive Disk where
  | missing : Disk
  | malformed : Disk
  | stored (j : PyVal) : Disk

/-- Outcome chosen by the environment for one `open(path, "w")` + `json.dump`
write: success, failure of `open` itself (file untouched), or failure during
`json.dump` after `open` already truncated the file. -/
inductive WriteMode where
  | ok : WriteMode
  | failOpen : WriteMode
  | failDump : WriteMode
deriving DecidableEq

/-! ## UTF-8 codec

`bytes.decode("utf-8")` and `str.encode("utf-8")` as used by
`StorageManager.agregar_conversion` (line 187) and `EncriptadorFernet`
(lines 97, 117).  The decoder is CPython's strict decoder: it rejects
continuation-byte starts, overlong encodings, surrogates and code points
above U+10FFFF. -/

/-- UTF-8 encoding of a single code point (`str.encode("utf-8")`, per
character). -/
def utf8EncodeChar (c : Nat) : List Nat :=
  if c < 0x80 then [c]
  else if c < 0x800 then [0xC0 + c / 64, 0x80 + c % 64]
  else if c < 0x10000 then
    [0xE0 + c / 4096, 0x80 + c / 64 % 64, 0x80 + c % 64]
  else
    [0xF0 + c / 0x40000, 0x80 + c / 4096 % 64, 0x80 + c / 64 % 64, 0x80 + c % 64]

/-- UTF-8 encoding of a string (list of code points). -/
def utf8Encode (cs : List Nat) : List Nat :=
  (cs.map utf8EncodeChar).flatten

/-- One step of CPython's strict UTF-8 decoder: decode the first scalar of a
byte string, returning the code point and the remaining bytes, or `none` when
the prefix is not a valid UTF-8 sequence (continuation-byte start, truncated
sequence, overlong encoding, surrogate, or value above U+10FFFF). -/
def decodeOne : List Nat → Option (Nat × List Nat)
  | [] => Option.none
  | b0 :: t =>
    if b0 < 0x80 then some (b0, t)
    else if b0 < 0xC2 then Option.none
    else if b0 < 0xE0 then
      match t with
      | b1 :: t1 =>
        if 0x80 ≤ b1 ∧ b1 < 0xC0 then
          some ((b0 - 0xC0) * 64 + (b1 - 0x80), t1)
        else Option.none
      | [] => Option.none
    else if b0 < 0xF0 then
      match t with
      | b1 :: b2 :: t2 =>
        if 0x80 ≤ b1 ∧ b1 < 0xC0 ∧ 0x80 ≤ b2 ∧ b2 < 0xC0 ∧
            ¬(b0 = 0xE0 ∧ b1 < 0xA0) ∧ ¬(b0 = 0xED ∧ 0xA0 ≤ b1) then
          some ((b0 - 0xE0) * 4096 + (b1 - 0x80) * 64 + (b2 - 0x80), t2)
        else Option.none
      | _ => Option.none
    else if b0 < 0xF5 then
      match t with
      | b1 :: b2 :: b3 :: t3 =>
        if 0x80 ≤ b1 ∧ b1 < 0xC0 ∧ 0x80 ≤ b2 ∧ b2 < 0xC0 ∧ 0x80 ≤ b3 ∧ b3 < 0xC0 ∧
            ¬(b0 = 0xF0 ∧ b1 < 0x90) ∧ ¬(b0 = 0xF4 ∧ 0x90 ≤ b1) then
          some ((b0 - 0xF0) * 0x40000 + (b1 - 0x80) * 4096 +
            (b2 - 0x80) * 64 + (b3 - 0x80), t3)
        else Option.none
      | _ => Option.none
    else Option.none

/-- The decoder loop, fuelled by an upper bound on the number of scalars still
to decode (each scalar consumes at least one byte, so the byte count is enough
fuel). -/
def utf8DecodeLoop : Nat → List Nat → Option (List Nat)
  | _, [] => some []
  | 0, _ :: _ => Option.none
  | fuel + 1, b0 :: t =>
    match decodeOne (b0 :: t) with
    | some (c, rest) => (utf8DecodeLoop fuel rest).map (fun cs => c :: cs)
    | Option.none => Option.none

/-- Strict UTF-8 decoding of a byte string (`bytes.decode("utf-8")`):
`some` of the decoded code points, or `none` when CPython would raise
`UnicodeDecodeError`. -/
def utf8Decode (bs : List Nat) : Option (List Nat) :=
  utf8DecodeLoop bs.length bs

/-! ## Base64 codec

`base64.b64encode(...).decode("utf-8")` as used by
`StorageManager.agregar_conversion` (line 193).  The encoder output is ASCII,
so the trailing `.decode("utf-8")` is the identity at the code-point level and
the encoder below produces code points directly.  The decoder models
`base64.b64decode` on correctly padded input. -/

/-- Code point of the base64 alphabet character for a sextet value. -/
def sextetToCp (n : Nat) : Nat :=
  if n < 26 then 65 + n
  else if n < 52 then 97 + (n - 26)
  else if n < 62 then 48 + (n - 52)
  else if n = 62 then 43
  else 47

/-- Sextet value of a base64 alphabet code point, `none` for a code point
outside the alphabet. -/
def cpToSextet (c : Nat) : Option Nat :=
  if 65 ≤ c ∧ c ≤ 90 then some (c - 65)
  else if 97 ≤ c ∧ c ≤ 122 then some (26 + (c - 97))
  else if 48 ≤ c ∧ c ≤ 57 then some (52 + (c - 48))
  else if c = 43 then some 62
  else if c = 47 then some 63
  else Option.none

/-- `base64.b64encode` on a byte string, emitting the code points of the
padded base64 text (61 is the code point of the padding sign). -/
def b64Encode : List Nat → List Nat
  | [] => []
  | [a] => [sextetToCp (a / 4), sextetToCp (a % 4 * 16), 61, 61]
  | [a, b] =>
      [sextetToCp (a / 4), sextetToCp (a % 4 * 16 + b / 16),
        sextetToCp (b % 16 * 4), 61]
  | a :: b :: c :: rest =>
      sextetToCp (a / 4) :: sextetToCp (a % 4 * 16 + b / 16) ::
        sextetToCp (b % 16 * 4 + c / 64) :: sextetToCp (c % 64) :: b64Encode rest

/-- `base64.b64decode` on padded base64 text (as code points): `some` of the
decoded bytes, or `none` on malformed input. -/
def b64Decode : List Nat → Option (List Nat)
  | [] => some []
  | c1 :: c2 :: c3 :: c4 :: rest =>
    if c3 = 61 ∧ c4 = 61 ∧ rest = [] then
      match cpToSextet c1, cpToSextet c2 with
      | some s1, some s2 => some [s1 * 4 + s2 / 16]
      | _, _ => Option.none
    else if c4 = 61 ∧ rest = [] then
      match cpToSextet c1, cpToSextet c2, cpToSextet c3 with
      | some s1, some s2, some s3 =>
          some [s1 * 4 + s2 / 16, s2 % 16 * 16 + s3 / 4]
      | _, _, _ => Option.none
    else
      match cpToSextet c1, cpToSextet c2, cpToSextet c3, cpToSextet c4,
          b64Decode rest with
      | some s1, some s2, some s3, some s4, some tail =>
          some ((s1 * 4 + s2 / 16) :: (s2 % 16 * 16 + s3 / 4) ::
            (s3 % 4 * 64 + s4) :: tail)
      | _, _, _, _, _ => Option.none
  | _ => Option.none

/-! ## StorageManager (src/modules/storage.py) -/

/-- The empty document `{"conversiones": []}` (storage.py line 135/148). -/
def emptyDoc : PyVal := PyVal.dict [("conversiones", PyVal.list [])]

/-- `StorageManager._inicializar_archivo` (storage.py lines 129-135): writes
the empty document with `open(..., "w")` + `json.dump`, without catching
exceptions.  Returns the raised exception (if any) and the disk afterwards. -/
def inicializar_archivo (m : WriteMode) (d : Disk) : Except String Unit × Disk :=
  match m with
  | WriteMode.ok => (Except.ok (), Disk.stored emptyDoc)
  | WriteMode.failOpen => (Except.error "IOError", d)
  | WriteMode.failDump => (Except.error "IOError", Disk.malformed)

/-- `StorageManager._leer_todo` (storage.py lines 137-148): `json.load` the
file; on any exception, log, call `_inicializar_archivo` (unguarded) and
return the literal `{"conversiones": []}`.  `m` is the outcome of the write
performed by `_inicializar_archivo` should it be reached. -/
def leer_todo (m : WriteMode) (d : Disk) : Except String PyVal × Disk :=
  match d with
  | Disk.stored j => (Except.ok j, d)
  | _ =>
    match inicializar_archivo m d with
    | (Except.ok _, d1) => (Except.ok emptyDoc, d1)
    | (Except.error e, d1) => (Except.error e, d1)

/-- `StorageManager._escribir_todo` (storage.py lines 150-162): try to
overwrite the file with the serialized document; catch every exception and
return `False` then. -/
def escribir_todo (m : WriteMode) (d : Disk) (data : PyVal) : Bool × Disk :=
  match m with
  | WriteMode.ok => (true, Disk.stored data)
  | WriteMode.failOpen => (false, d)
  | WriteMode.failDump => (false, Disk.malformed)

/-- Python truthiness of the values of `PyVal` (used by
`... if conversiones else 1`, storage.py line 182). -/
def pyTruthy : PyVal → Bool
  | PyVal.none => false
  | PyVal.int n => n ≠ 0
  | PyVal.str s => ¬s.isEmpty
  | PyVal.bytes b => ¬b.isEmpty
  | PyVal.list xs => ¬xs.isEmpty
  | PyVal.dict kvs => ¬kvs.isEmpty

/-- `data.get(key, default)` (storage.py lines 181, 227): dict lookup with
default; on a non-dict value CPython raises `AttributeError`. -/
def pyGet (v : PyVal) (k : String) (dflt : PyVal) : Except String PyVal :=
  match v with
  | PyVal.dict kvs => Except.ok ((kvs.lookup k).getD dflt)
  | _ => Except.error "AttributeError"

/-- `registro.get(key)` on the input dict (default `None`). -/
def rget (registro : List (String × PyVal)) (k : String) : PyVal :=
  (registro.lookup k).getD PyVal.none

/-- `data[key] = value` on a dict's association list (storage.py line 212):
replace the binding if the key is present, else add it at the end. -/
def pySetItem (kvs : List (String × PyVal)) (k : String) (v : PyVal) :
    List (String × PyVal) :=
  if (kvs.lookup k).isSome then
    kvs.map (fun p => if p.1 = k then (k, v) else p)
  else kvs ++ [(k, v)]

/-- `(conversiones[-1]['id'] + 1) if conversiones else 1`
(storage.py line 182).  A falsy value gives 1; on a truthy list the last
element is subscripted with `'id'` and incremented, which raises unless the
last element is a dict whose `'id'` is a number (numbers are modelled as
integers); other truthy values raise on the subscripting. -/
def next_id_of (conversiones : PyVal) : Except String Int :=
  if pyTruthy conversiones then
    match conversiones with
    | PyVal.list xs =>
      match xs.getLast? with
      | some (PyVal.dict kvs) =>
        match kvs.lookup "id" with
        | some (PyVal.int n) => Except.ok (n + 1)
        | some _ => Except.error "TypeError"
        | Option.none => Except.error "KeyError"
      | some _ => Except.error "TypeError"
      | Option.none => Except.ok 1
    | _ => Except.error "TypeError"
  else Except.ok 1

/-- Normalization of `texto_encriptado` (storage.py lines 185-187): a
`bytes`/`bytearray` value is decoded with `.decode('utf-8')` (raising
`UnicodeDecodeError` on invalid UTF-8); any other value is kept as-is. -/
def normTextoEncriptado (v : PyVal) : Except String PyVal :=
  match v with
  | PyVal.bytes b =>
    match utf8Decode b with
    | some s => Except.ok (PyVal.str s)
    | Option.none => Except.error "UnicodeDecodeError"
  | _ => Except.ok v

/-- Normalization of `codigo_maquina` (storage.py lines 189-196): a
`bytes`/`bytearray` value is Base64-encoded and decoded as ASCII text
(`base64.b64encode(v).decode('utf-8')`; `b64encode` accepts any bytes, so
the `except` branch at line 194 is unreachable); any other value is kept
as-is. -/
def normCodigoMaquina (v : PyVal) : PyVal :=
  match v with
  | PyVal.bytes b => PyVal.str (b64Encode b)
  | _ => v

/-- The `registro_final` dict built at storage.py lines 199-209.  `now` is the
code-point string produced by `datetime.utcnow().isoformat() + "Z"`, passed
in explicitly since the clock is ambient state. -/
def registroFinal (nid : Int) (registro : List (String × PyVal))
    (te cm : PyVal) (now : List Nat) : PyVal :=
  PyVal.dict [
    ("id", PyVal.int nid),
    ("archivo_origen", rget registro "archivo_origen"),
    ("ruta", rget registro "ruta"),
    ("texto", rget registro "texto"),
    ("texto_encriptado", te),
    ("codigo_maquina", cm),
    ("duracion_segundos", rget registro "duracion_segundos"),
    ("info_audio", rget registro "info_audio"),
    ("fecha", PyVal.str now)]

/-- `StorageManager.agregar_conversion` (storage.py lines 164-219).
`mr` is the outcome of the reinitialization write inside `_leer_todo`
(reached only when the read fails), `mw` the outcome of the final
`_escribir_todo`.  Returns the saved record or the raised exception, with the
disk after the call. -/
def agregar_conversion (mr mw : WriteMode) (now : List Nat) (d : Disk)
    (registro : List (String × PyVal)) : Except String PyVal × Disk :=
  match leer_todo mr d with
  | (Except.error e, d1) => (Except.error e, d1)
  | (Except.ok data, d1) =>
    match pyGet data "conversiones" (PyVal.list []) with
    | Except.error e => (Except.error e, d1)
    | Except.ok conversiones =>
      match next_id_of conversiones with
      | Except.error e => (Except.error e, d1)
      | Except.ok nid =>
        match normTextoEncriptado (rget registro "texto_encriptado") with
        | Except.error e => (Except.error e, d1)
        | Except.ok te =>
          let cm := normCodigoMaquina (rget registro "codigo_maquina")
          let rf := registroFinal nid registro te cm now
          match conversiones with
          | PyVal.list xs =>
            match data with
            | PyVal.dict kvs =>
              let data1 := PyVal.dict
                (pySetItem kvs "conversiones" (PyVal.list (xs ++ [rf])))
              match escribir_todo mw d1 data1 with
              | (true, d2) => (Except.ok rf, d2)
              | (false, d2) =>
                  (Except.error "No se pudo guardar la conversión en JSON", d2)
            | _ => (Except.error "AttributeError", d1)
          | _ => (Except.error "AttributeError", d1)

/-- `StorageManager.listar_conversiones` (storage.py lines 221-227). -/
def listar_conversiones (m : WriteMode) (d : Disk) : Except String PyVal × Disk :=
  match leer_todo m d with
  | (Except.error e, d1) => (Except.error e, d1)
  | (Except.ok data, d1) => (pyGet data "conversiones" (PyVal.list []), d1)

/-- `r.get("id") == id_` for a record `r` (storage.py line 236): Python `==`
between a non-int and an int is `False`. -/
def pyEqInt (v : PyVal) (i : Int) : Bool :=
  match v with
  | PyVal.int n => n = i
  | _ => false

/-- The `for r in ...: if r.get("id") == id_: return r` scan of
`obtener_por_id` (storage.py lines 235-238); `.get` on a non-dict element
raises `AttributeError`. -/
def findById (xs : List PyVal) (i : Int) : Except String PyVal :=
  match xs with
  | [] => Except.ok PyVal.none
  | r :: rest =>
    match r with
    | PyVal.dict kvs =>
      if pyEqInt ((kvs.lookup "id").getD PyVal.none) i then Except.ok (PyVal.dict kvs)
      else findById rest i
    | _ => Except.error "AttributeError"

/-- `StorageManager.obtener_por_id` (storage.py lines 229-238): scan
`listar_conversiones()` and return the first record with the given id, or
`None`.  Iterating a non-list value raises. -/
def obtener_por_id (m : WriteMode) (d : Disk) (i : Int) : Except String PyVal × Disk :=
  match listar_conversiones m d with
  | (Except.error e, d1) => (Except.error e, d1)
  | (Except.ok lst, d1) =>
    match lst with
    | PyVal.list xs => (findById xs i, d1)
    | _ => (Except.error "TypeError", d1)

/-! ## EncriptadorFernet (src/modules/encriptacion.py)

The Fernet primitive itself is external (`cryptography.fernet`); the wrapper
is modelled with the cipher's `encrypt`/`decrypt` as explicit parameters:
`encrypt` maps plaintext bytes to token bytes and never fails, `decrypt`
maps token bytes to plaintext bytes or fails (wrong key, corrupt token). -/

/-- Code points stripped by Python `str.strip()` (ASCII whitespace; the full
Unicode whitespace set is irrelevant to the texts considered here). -/
def isSpaceCp (c : Nat) : Bool :=
  c = 32 ∨ c = 9 ∨ c = 10 ∨ c = 13 ∨ c = 11 ∨ c = 12

/-- `EncriptadorFernet.encriptar_texto` (encriptacion.py lines 84-102):
reject empty or whitespace-only text with `ValueError`
(`not texto or texto.strip() == ""`), else encode to UTF-8 and encrypt. -/
def encriptar_texto (encrypt : List Nat → List Nat) (texto : List Nat) :
    Except String (List Nat) :=
  if texto.all isSpaceCp then Except.error "El texto no puede estar vacío"
  else Except.ok (encrypt (utf8Encode texto))

/-- `EncriptadorFernet.desencriptar_texto` (encriptacion.py lines 104-124):
reject an empty token with `ValueError`; otherwise decrypt and UTF-8-decode,
turning any failure of either step into
`ValueError("Token inválido o clave Fernet incorrecta.")`. -/
def desencriptar_texto (decrypt : List Nat → Except Unit (List Nat))
    (token : List Nat) : Except String (List Nat) :=
  if token.isEmpty then Except.error "El token no puede estar vacío"
  else
    match decrypt token with
    | Except.ok tb =>
      match utf8Decode tb with
      | some s => Except.ok s
      | Option.none => Except.error "Token inválido o clave Fernet incorrecta."
    | Except.error _ => Except.error "Token inválido o clave Fernet incorrecta."

/-! ## Derived notions used to state the claims -/

/-- Disk holding exactly the document `{"conversiones": xs}`. -/
def docOf (xs : List PyVal) : Disk :=
  Disk.stored (PyVal.dict [("conversiones", PyVal.list xs)])

/-- The `id` field of a record, when the record is a dict whose `id` is an
integer. -/
def idOfRec : PyVal → Option Int
  | PyVal.dict kvs =>
    match kvs.lookup "id" with
    | some (PyVal.int n) => some n
    | _ => Option.none
  | _ => Option.none

/-- The id the code will assign next on a document whose record list is
`xs` (last id + 1, or 1 when empty). -/
def nextIdOf (xs : List PyVal) : Int :=
  match xs.getLast?.bind idOfRec with
  | some n => n + 1
  | Option.none => 1

/-- The input's `texto_encriptado` normalizes without raising: it is not a
bytes value, or it is valid UTF-8. -/
def normOk (registro : List (String × PyVal)) : Bool :=
  match rget registro "texto_encriptado" with
  | PyVal.bytes b => (utf8Decode b).isSome
  | _ => true

/-- The normalized record `append` will produce for input `registro`, id
`nid` and timestamp `now`, assuming `normOk`. -/
def expectedRec (nid : Int) (registro : List (String × PyVal)) (now : List Nat) :
    PyVal :=
  registroFinal nid registro
    (match normTextoEncriptado (rget registro "texto_encriptado") with
     | Except.ok v => v
     | Except.error _ => PyVal.none)
    (normCodigoMaquina (rget registro "codigo_maquina")) now

/-- A sequence of `agregar_conversion` calls (all with succeeding writes),
collecting the returned records; stops at the first raised exception. -/
def appendSeq (now : List Nat) (d : Disk) :
    List (List (String × PyVal)) → Except String (List PyVal) × Disk
  | [] => (Except.ok [], d)
  | r :: rs =>
    match agregar_conversion WriteMode.ok WriteMode.ok now d r with
    | (Except.ok rec, d1) =>
      match appendSeq now d1 rs with
      | (Except.ok recs, d2) => (Except.ok (rec :: recs), d2)
      | (Except.error e, d2) => (Except.error e, d2)
    | (Except.error e, d1) => (Except.error e, d1)

/-- Whether a value is a Python dict. -/
def isDictB : PyVal → Bool
  | PyVal.dict _ => true
  | _ => false

/-- The nine field names of a persisted record, in the order the code writes
them (storage.py lines 199-209). -/
def recFieldNames : List String :=
  ["id", "archivo_origen", "ruta", "texto", "texto_encriptado",
    "codigo_maquina", "duracion_segundos", "info_audio", "fecha"]

/-- The list of `id` fields of a record list (0 standing in for a missing or
non-integer id; only used under a well-formedness hypothesis that excludes
that case). -/
def idsOf (xs : List PyVal) : List Int :=
  xs.map (fun r => (idOfRec r).getD 0)

/-! ## Codec lemmas -/

lemma cpToSextet_sextetToCp : ∀ n < 64, cpToSextet (sextetToCp n) = some n := by
  decide

lemma sextetToCp_ne_pad : ∀ n < 64, sextetToCp n ≠ 61 := by
  decide

lemma sextetToCp_printable : ∀ n < 64, 33 ≤ sextetToCp n ∧ sextetToCp n ≤ 126 := by
  decide

/-- `base64.b64decode` inverts `base64.b64encode` on byte strings. -/
theorem b64Decode_b64Encode : ∀ bs : List Nat, (∀ x ∈ bs, x < 256) →
    b64Decode (b64Encode bs) = some bs
  | [], _ => rfl
  | [a], h => by
    have ha : a < 256 := h a (by simp)
    simp only [b64Encode, b64Decode]
    rw [cpToSextet_sextetToCp _ (by omega), cpToSextet_sextetToCp _ (by omega)]
    simp only [true_and, and_self, if_true, Option.some.injEq, List.cons.injEq,
      and_true]
    omega
  | [a, b], h => by
    have ha : a < 256 := h a (by simp)
    have hb : b < 256 := h b (by simp)
    simp only [b64Encode, b64Decode]
    rw [if_neg (fun hcond => sextetToCp_ne_pad (b % 16 * 4) (by omega) hcond.1)]
    rw [cpToSextet_sextetToCp _ (by omega), cpToSextet_sextetToCp _ (by omega),
      cpToSextet_sextetToCp _ (by omega)]
    simp only [true_and, and_self, if_true, Option.some.injEq, List.cons.injEq,
      and_true]
    exact ⟨by omega, by omega⟩
  | a :: b :: c :: rest, h => by
    have ha : a < 256 := h a (by simp)
    have hb : b < 256 := h b (by simp)
    have hc : c < 256 := h c (by simp)
    have IH : b64Decode (b64Encode rest) = some rest :=
      b64Decode_b64Encode rest (fun x hx => h x (by simp [hx]))
    simp only [b64Encode, b64Decode]
    rw [if_neg (fun hcond =>
      sextetToCp_ne_pad (b % 16 * 4 + c / 64) (by omega) hcond.1)]
    rw [if_neg (fun hcond => sextetToCp_ne_pad (c % 64) (by omega) hcond.1)]
    rw [cpToSextet_sextetToCp _ (by omega), cpToSextet_sextetToCp _ (by omega),
      cpToSextet_sextetToCp _ (by omega), cpToSextet_sextetToCp _ (by omega), IH]
    simp only [Option.some.injEq, List.cons.injEq, and_true]
    exact ⟨by omega, by omega, by omega⟩

/-- Every code point emitted by the base64 encoder is printable ASCII. -/
theorem b64Encode_printable : ∀ bs : List Nat, (∀ x ∈ bs, x < 256) →
    ∀ cp ∈ b64Encode bs, 33 ≤ cp ∧ cp ≤ 126
  | [], _ => by simp [b64Encode]
  | [a], h => by
    have ha : a < 256 := h a (by simp)
    simp only [b64Encode, List.mem_cons, List.not_mem_nil, or_false]
    rintro cp (rfl | rfl | rfl | rfl)
    · exact sextetToCp_printable _ (by omega)
    · exact sextetToCp_printable _ (by omega)
    · omega
    · omega
  | [a, b], h => by
    have ha : a < 256 := h a (by simp)
    have hb : b < 256 := h b (by simp)
    simp only [b64Encode, List.mem_cons, List.not_mem_nil, or_false]
    rintro cp (rfl | rfl | rfl | rfl)
    · exact sextetToCp_printable _ (by omega)
    · exact sextetToCp_printable _ (by omega)
    · exact sextetToCp_printable _ (by omega)
    · omega
  | a :: b :: c :: rest, h => by
    have ha : a < 256 := h a (by simp)
    have hb : b < 256 := h b (by simp)
    have hc : c < 256 := h c (by simp)
    have IH := b64Encode_printable rest (fun x hx => h x (by simp [hx]))
    simp only [b64Encode, List.mem_cons]
    rintro cp (rfl | rfl | rfl | rfl | hm)
    · exact sextetToCp_printable _ (by omega)
    · exact sextetToCp_printable _ (by omega)
    · exact sextetToCp_printable _ (by omega)
    · exact sextetToCp_printable _ (by omega)
    · exact IH cp hm

lemma utf8Encode_nil : utf8Encode [] = [] := rfl

lemma utf8Encode_cons (c : Nat) (cs : List Nat) :
    utf8Encode (c :: cs) = utf8EncodeChar c ++ utf8Encode cs := by
  simp [utf8Encode]

/-- A decoded scalar consumes at least one byte. -/
lemma decodeOne_length (bs : List Nat) (c : Nat) (rest : List Nat)
    (h : decodeOne bs = some (c, rest)) : rest.length < bs.length := by
  match bs with
  | [] => simp [decodeOne] at h
  | b0 :: t =>
    simp only [decodeOne] at h
    repeat' split at h
    all_goals (try (simp at h))
    all_goals (obtain ⟨h1, h2⟩ := h)
    all_goals (subst h2)
    all_goals simp
    all_goals omega

set_option maxRecDepth 4000 in
/-- Re-encoding the scalar decoded by `decodeOne` reproduces the consumed
bytes. -/
lemma decodeOne_encode (bs : List Nat) (c : Nat) (rest : List Nat)
    (h : decodeOne bs = some (c, rest)) : utf8EncodeChar c ++ rest = bs := by
  match bs with
  | [] => simp [decodeOne] at h
  | b0 :: t =>
    simp only [decodeOne] at h
    repeat' split at h
    all_goals (try (simp at h))
    all_goals (obtain ⟨h1, h2⟩ := h)
    all_goals (subst h2 h1)
    all_goals (simp only [utf8EncodeChar])
    all_goals (split_ifs <;>
      first
        | (exfalso; omega)
        | (simp only [List.cons_append, List.nil_append, List.cons.injEq,
            eq_self_iff_true, and_true, and_self] <;>
           first
             | trivial
             | omega))

/-- Fuel-level round trip: a successfully decoded byte string re-encodes to
itself. -/
lemma utf8Loop_encode :
    ∀ (fuel : Nat) (bs cs : List Nat),
      utf8DecodeLoop fuel bs = some cs → utf8Encode cs = bs := by
  intro fuel
  induction fuel with
  | zero =>
    intro bs cs h
    match bs with
    | [] =>
      simp only [utf8DecodeLoop, Option.some.injEq] at h
      subst h
      rfl
    | _ :: _ => simp [utf8DecodeLoop] at h
  | succ n IH =>
    intro bs cs h
    match bs with
    | [] =>
      simp only [utf8DecodeLoop, Option.some.injEq] at h
      subst h
      rfl
    | b0 :: t =>
      simp only [utf8DecodeLoop] at h
      cases hd : decodeOne (b0 :: t) with
      | none => rw [hd] at h; simp at h
      | some pr =>
        obtain ⟨c, rest⟩ := pr
        rw [hd] at h
        simp only [Option.map_eq_some'] at h
        obtain ⟨cs1, hdec, rfl⟩ := h
        rw [utf8Encode_cons, IH rest cs1 hdec, decodeOne_encode _ _ _ hd]

/-- Re-encoding a successfully UTF-8-decoded byte string recovers the same
bytes: `s.encode("utf-8") == b` whenever `s = b.decode("utf-8")` succeeded. -/
theorem utf8Encode_utf8Decode (bs cs : List Nat) (h : utf8Decode bs = some cs) :
    utf8Encode cs = bs :=
  utf8Loop_encode bs.length bs cs h

/-! ## Behaviour of the storage operations on well-formed documents -/

lemma idOfRec_registroFinal (nid : Int) (r : List (String × PyVal))
    (te cm : PyVal) (now : List Nat) :
    idOfRec (registroFinal nid r te cm now) = some nid := rfl

lemma idOfRec_expectedRec (nid : Int) (r : List (String × PyVal)) (now : List Nat) :
    idOfRec (expectedRec nid r now) = some nid := by
  unfold expectedRec
  cases h : normTextoEncriptado (rget r "texto_encriptado") <;>
    simp [idOfRec_registroFinal]

lemma nextIdOf_nil : nextIdOf [] = 1 := rfl

lemma nextIdOf_concat (xs : List PyVal) (rec : PyVal) (n : Int)
    (h : idOfRec rec = some n) : nextIdOf (xs ++ [rec]) = n + 1 := by
  simp [nextIdOf, List.getLast?_concat, h]

lemma next_id_of_list (xs : List PyVal)
    (hl : xs = [] ∨ (xs.getLast?.bind idOfRec).isSome) :
    next_id_of (PyVal.list xs) = Except.ok (nextIdOf xs) := by
  rcases hl with rfl | hsome
  · rfl
  · cases hgl : xs.getLast? with
    | none => rw [hgl] at hsome; simp at hsome
    | some last =>
      rw [hgl] at hsome
      have hne : xs ≠ [] := by
        intro hnil
        subst hnil
        simp at hgl
      have hemp : xs.isEmpty = false := by
        simpa [List.isEmpty_iff] using hne
      cases last with
      | dict kvs =>
        simp only [Option.bind_eq_bind, Option.some_bind, idOfRec] at hsome
        cases hid : kvs.lookup "id" with
        | none => rw [hid] at hsome; simp at hsome
        | some v =>
          rw [hid] at hsome
          cases v <;> simp at hsome
          case int n =>
            simp [next_id_of, pyTruthy, hemp, hgl, hid, nextIdOf, idOfRec]
      | none => simp [idOfRec] at hsome
      | int n => simp [idOfRec] at hsome
      | str s => simp [idOfRec] at hsome
      | bytes b => simp [idOfRec] at hsome
      | list ys => simp [idOfRec] at hsome

lemma leer_todo_stored (m : WriteMode) (j : PyVal) :
    leer_todo m (Disk.stored j) = (Except.ok j, Disk.stored j) := rfl

lemma listar_on_doc (m : WriteMode) (xs : List PyVal) :
    listar_conversiones m (docOf xs) = (Except.ok (PyVal.list xs), docOf xs) := by
  simp [listar_conversiones, leer_todo, docOf, pyGet, List.lookup]

/-- On a well-formed document, a successful `append` returns the normalized
record with id `last + 1` (1 when empty) and persists it at the end of the
list. -/
lemma agregar_on_doc (now : List Nat) (xs : List PyVal)
    (r : List (String × PyVal)) (hn : normOk r = true)
    (hl : xs = [] ∨ (xs.getLast?.bind idOfRec).isSome) :
    agregar_conversion WriteMode.ok WriteMode.ok now (docOf xs) r =
      (Except.ok (expectedRec (nextIdOf xs) r now),
        docOf (xs ++ [expectedRec (nextIdOf xs) r now])) := by
  have hnid := next_id_of_list xs hl
  unfold normOk at hn
  cases hv : rget r "texto_encriptado" with
  | bytes b =>
    simp only [hv] at hn
    cases hd : utf8Decode b with
    | none => rw [hd] at hn; simp at hn
    | some s =>
      simp [agregar_conversion, docOf, leer_todo, pyGet, List.lookup, hnid,
        normTextoEncriptado, hv, hd, expectedRec, registroFinal, pySetItem,
        escribir_todo]
  | none =>
    simp [agregar_conversion, docOf, leer_todo, pyGet, List.lookup, hnid,
      normTextoEncriptado, hv, expectedRec, registroFinal, pySetItem,
      escribir_todo]
  | int n =>
    simp [agregar_conversion, docOf, leer_todo, pyGet, List.lookup, hnid,
      normTextoEncriptado, hv, expectedRec, registroFinal, pySetItem,
      escribir_todo]
  | str s =>
    simp [agregar_conversion, docOf, leer_todo, pyGet, List.lookup, hnid,
      normTextoEncriptado, hv, expectedRec, registroFinal, pySetItem,
      escribir_todo]
  | list ys =>
    simp [agregar_conversion, docOf, leer_todo, pyGet, List.lookup, hnid,
      normTextoEncriptado, hv, expectedRec, registroFinal, pySetItem,
      escribir_todo]
  | dict kvs =>
    simp [agregar_conversion, docOf, leer_todo, pyGet, List.lookup, hnid,
      normTextoEncriptado, hv, expectedRec, registroFinal, pySetItem,
      escribir_todo]

/-- Iterating a successful `append` from a well-formed document assigns
consecutive ids starting at `nextIdOf xs` and appends the records in call
order. -/
lemma appendSeq_on_doc (now : List Nat) :
    ∀ (rs : List (List (String × PyVal))) (xs : List PyVal),
      (∀ r ∈ rs, normOk r = true) →
      (xs = [] ∨ (xs.getLast?.bind idOfRec).isSome) →
      ∃ recs, appendSeq now (docOf xs) rs = (Except.ok recs, docOf (xs ++ recs)) ∧
        recs.map idOfRec =
          (List.range rs.length).map (fun i : Nat => some (nextIdOf xs + (i : Int))) := by
  intro rs
  induction rs with
  | nil =>
    intro xs h hl
    exact ⟨[], by simp [appendSeq], by simp⟩
  | cons r rs IH =>
    intro xs h hl
    have hr : normOk r = true := h r (by simp)
    have step := agregar_on_doc now xs r hr hl
    have hid0 : idOfRec (expectedRec (nextIdOf xs) r now) = some (nextIdOf xs) :=
      idOfRec_expectedRec _ _ _
    have hl2 : xs ++ [expectedRec (nextIdOf xs) r now] = [] ∨
        ((xs ++ [expectedRec (nextIdOf xs) r now]).getLast?.bind idOfRec).isSome := by
      right
      simp [List.getLast?_concat, hid0]
    obtain ⟨recs, hseq, hids⟩ :=
      IH (xs ++ [expectedRec (nextIdOf xs) r now])
        (fun r2 hr2 => h r2 (by simp [hr2])) hl2
    refine ⟨expectedRec (nextIdOf xs) r now :: recs, ?_, ?_⟩
    · simp only [appendSeq, step, hseq, List.append_assoc, List.singleton_append]
    · have hnext : nextIdOf (xs ++ [expectedRec (nextIdOf xs) r now]) =
          nextIdOf xs + 1 := nextIdOf_concat xs _ _ hid0
      rw [hnext] at hids
      simp only [List.map_cons, hid0, hids, List.length_cons,
        List.range_succ_eq_map, List.map_map, List.cons.injEq]
      constructor
      · simp
      · apply List.map_congr_left
        intro i _
        simp only [Function.comp_apply, Option.some.injEq]
        push_cast
        ring

/-- The linear scan of `obtener_por_id` returns the first record whose id
matches, in `List.find?` terms, when every element is a dict. -/
lemma findById_spec :
    ∀ (xs : List PyVal) (i : Int), (∀ r ∈ xs, isDictB r = true) →
      findById xs i =
        Except.ok ((xs.find? (fun r => idOfRec r == some i)).getD PyVal.none) := by
  intro xs
  induction xs with
  | nil => intro i hw; rfl
  | cons r rest IH =>
    intro i hw
    have hd : isDictB r = true := hw r (by simp)
    cases r with
    | dict kvs =>
      have htest : pyEqInt ((kvs.lookup "id").getD PyVal.none) i =
          (idOfRec (PyVal.dict kvs) == some i) := by
        cases hid : kvs.lookup "id" with
        | none => simp [pyEqInt, idOfRec, hid]
        | some v =>
          cases v with
          | int n =>
            by_cases hni : n = i <;> simp [pyEqInt, idOfRec, hid, hni]
          | none => simp [pyEqInt, idOfRec, hid]
          | str s => simp [pyEqInt, idOfRec, hid]
          | bytes b => simp [pyEqInt, idOfRec, hid]
          | list ys => simp [pyEqInt, idOfRec, hid]
          | dict kvs2 => simp [pyEqInt, idOfRec, hid]
      simp only [findById, List.find?_cons, htest]
      by_cases hb : (idOfRec (PyVal.dict kvs) == some i) = true
      · simp [hb]
      · rw [Bool.not_eq_true] at hb
        simp only [hb, if_false, Bool.false_eq_true]
        exact IH i (fun r2 h2 => hw r2 (by simp [h2]))
    | none => simp [isDictB] at hd
    | int n => simp [isDictB] at hd
    | str s => simp [isDictB] at hd
    | bytes b => simp [isDictB] at hd
    | list ys => simp [isDictB] at hd

/-- No record is found when every id lies in `[1, n]` and the searched id is
0 or exceeds `n`. -/
lemma find_id_out_of_range (xs : List PyVal) (n i : Int)
    (hw : ∀ r ∈ xs, ∃ m : Int, idOfRec r = some m ∧ 1 ≤ m ∧ m ≤ n)
    (hi : i = 0 ∨ n < i) :
    xs.find? (fun r => idOfRec r == some i) = Option.none := by
  apply List.find?_eq_none.mpr
  intro r hr
  obtain ⟨m, hm, h1, h2⟩ := hw r hr
  simp [hm]
  omega

lemma obtener_on_doc (xs : List PyVal) (i : Int) :
    obtener_por_id WriteMode.ok (docOf xs) i = (findById xs i, docOf xs) := by
  simp [obtener_por_id, listar_on_doc]

/-- Under `normOk`, the `texto_encriptado` normalization succeeds. -/
lemma normTE_of_normOk (r : List (String × PyVal)) (hn : normOk r = true) :
    ∃ te, normTextoEncriptado (rget r "texto_encriptado") = Except.ok te := by
  unfold normOk at hn
  cases hv : rget r "texto_encriptado" with
  | bytes b =>
    simp only [hv] at hn
    cases hd : utf8Decode b with
    | none => rw [hd] at hn; simp at hn
    | some s => exact ⟨PyVal.str s, by simp [normTextoEncriptado, hd]⟩
  | none => exact ⟨PyVal.none, rfl⟩
  | int n => exact ⟨PyVal.int n, rfl⟩
  | str s => exact ⟨PyVal.str s, rfl⟩
  | list ys => exact ⟨PyVal.list ys, rfl⟩
  | dict kvs => exact ⟨PyVal.dict kvs, rfl⟩

/-- When the final write fails, `append` raises the storage error and the
disk is whatever the failed write left behind. -/
lemma agregar_write_fail (mw : WriteMode) (hmw : mw ≠ WriteMode.ok)
    (now : List Nat) (xs : List PyVal) (r : List (String × PyVal))
    (hn : normOk r = true)
    (hl : xs = [] ∨ (xs.getLast?.bind idOfRec).isSome) :
    agregar_conversion WriteMode.ok mw now (docOf xs) r =
      (Except.error "No se pudo guardar la conversión en JSON",
        (escribir_todo mw (docOf xs) (PyVal.dict [("conversiones",
          PyVal.list (xs ++ [expectedRec (nextIdOf xs) r now]))])).2) := by
  obtain ⟨te, hte⟩ := normTE_of_normOk r hn
  have hnid := next_id_of_list xs hl
  have hexp : expectedRec (nextIdOf xs) r now =
      registroFinal (nextIdOf xs) r te
        (normCodigoMaquina (rget r "codigo_maquina")) now := by
    simp [expectedRec, hte]
  cases mw with
  | ok => exact absurd rfl hmw
  | failOpen =>
    simp [agregar_conversion, docOf, leer_todo, pyGet, List.lookup, hnid, hte,
      hexp, pySetItem, escribir_todo]
  | failDump =>
    simp [agregar_conversion, docOf, leer_todo, pyGet, List.lookup, hnid, hte,
      hexp, pySetItem, escribir_todo]

/-- A document whose records all carry an integer id satisfies the
last-record hypothesis of `agregar_on_doc`. -/
lemma hl_of_wf (xs : List PyVal)
    (hw : ∀ rec ∈ xs, (idOfRec rec).isSome) :
    xs = [] ∨ (xs.getLast?.bind idOfRec).isSome := by
  cases hgl : xs.getLast? with
  | none => exact Or.inl (List.getLast?_eq_none_iff.mp hgl)
  | some rec =>
    right
    simpa using hw rec (List.mem_of_getLast?_eq_some hgl)

/-! ## Claims -/

/-- C3 (counterexample): `_leer_todo` is not exception-free on every
backing-file state — when the file is unparseable and the reinitialization
write inside the `except` handler itself fails (here: `open` raises), the
exception propagates out of `_leer_todo` instead of an empty document being
returned. -/
theorem C3_counterexample :
    leer_todo WriteMode.failOpen Disk.malformed =
      (Except.error "IOError", Disk.malformed) := rfl

/-- C3 (amended): on any read or parse failure (missing file or unparseable
contents), provided the reinitialization write succeeds, `_leer_todo` does
not raise: it reinitializes the file to the empty document
`{"conversiones": []}` and returns that empty document. -/
theorem C3_read_failure_selfheals (d : Disk)
    (h : d = Disk.missing ∨ d = Disk.malformed) :
    leer_todo WriteMode.ok d = (Except.ok emptyDoc, Disk.stored emptyDoc) := by
  rcases h with rfl | rfl <;> rfl

/-- C3 witness: the amended theorem evaluated on a missing backing file. -/
theorem C3_witness :
    leer_todo WriteMode.ok Disk.missing =
      (Except.ok emptyDoc, Disk.stored emptyDoc) :=
  C3_read_failure_selfheals Disk.missing (Or.inl rfl)

/-- C5 (counterexample): a write that fails after `open(path, "w")` already
truncated the file destroys the prior contents: `_escribir_todo` returns
`False` but the document that was on disk is gone (the file is left
unparseable), so a failed write does not leave the prior file unchanged. -/
theorem C5_counterexample :
    escribir_todo WriteMode.failDump
        (docOf [PyVal.dict [("id", PyVal.int 1)]]) emptyDoc =
      (false, Disk.malformed) ∧
    Disk.malformed ≠ docOf [PyVal.dict [("id", PyVal.int 1)]] :=
  ⟨rfl, fun h => Disk.noConfusion h⟩

/-- C5 (amended): every write is whole-document — a successful
`_escribir_todo` replaces the file content with the serialized document —
but the write is not atomic on failure: a failed write leaves either the
prior contents (when `open` itself failed) or an unparseable
truncated/partial file (when serialization failed after `open` truncated). -/
theorem C5_write_whole_document (m : WriteMode) (d : Disk) (data : PyVal) :
    ((escribir_todo m d data).1 = true →
      (escribir_todo m d data).2 = Disk.stored data) ∧
    ((escribir_todo m d data).1 = false →
      (escribir_todo m d data).2 = d ∨
        (escribir_todo m d data).2 = Disk.malformed) := by
  cases m <;> simp [escribir_todo]

/-- C5 witness: the amended theorem evaluated on a successful write and on a
failed `open`. -/
theorem C5_witness :
    (escribir_todo WriteMode.ok Disk.missing emptyDoc).2 =
      Disk.stored emptyDoc ∧
    ((escribir_todo WriteMode.failOpen Disk.malformed emptyDoc).2 =
        Disk.malformed ∨
      (escribir_todo WriteMode.failOpen Disk.malformed emptyDoc).2 =
        Disk.malformed) :=
  ⟨(C5_write_whole_document WriteMode.ok Disk.missing emptyDoc).1 rfl,
    (C5_write_whole_document WriteMode.failOpen Disk.malformed emptyDoc).2 rfl⟩

/-- C8: `encriptar_texto` rejects empty plaintext with a `ValueError`;
`desencriptar_texto` rejects an empty token with a `ValueError`, and when the
underlying Fernet `decrypt` fails (corrupt token or different key) it raises
a `ValueError` rather than returning silently. -/
theorem C8_cipher_validation
    (encrypt : List Nat → List Nat)
    (decrypt : List Nat → Except Unit (List Nat)) (token : List Nat) :
    encriptar_texto encrypt [] = Except.error "El texto no puede estar vacío" ∧
    desencriptar_texto decrypt [] =
      Except.error "El token no puede estar vacío" ∧
    (token ≠ [] → ∀ e, decrypt token = Except.error e →
      desencriptar_texto decrypt token =
        Except.error "Token inválido o clave Fernet incorrecta.") := by
  refine ⟨rfl, rfl, ?_⟩
  intro hne e hdec
  have hemp : token.isEmpty = false := by simpa [List.isEmpty_iff] using hne
  simp [desencriptar_texto, hemp, hdec]

/-- C8 witness: the cipher wrapper evaluated with a decrypt stub that always
fails, on the token `[1]`. -/
theorem C8_witness :
    encriptar_texto (fun bs => bs) [] =
      Except.error "El texto no puede estar vacío" ∧
    desencriptar_texto (fun _ => Except.error ()) [] =
      Except.error "El token no puede estar vacío" ∧
    desencriptar_texto (fun _ => Except.error ()) [1] =
      Except.error "Token inválido o clave Fernet incorrecta." := by
  obtain ⟨h1, h2, h3⟩ :=
    C8_cipher_validation (fun bs => bs) (fun _ => Except.error ()) [1]
  exact ⟨h1, h2, h3 (by simp) () rfl⟩

/-- C10: when the backing file holds valid JSON whose top-level value is not
an object (for example an array), `_leer_todo` returns it unrepaired (the
file is not reinitialized), and `listar_conversiones` and
`agregar_conversion` then raise (`.get` on a non-dict) instead of
self-healing; only parse failures trigger reinitialization. -/
theorem C10_nonobject_not_repaired (j : PyVal) (hj : isDictB j = false) :
    leer_todo WriteMode.ok (Disk.stored j) = (Except.ok j, Disk.stored j) ∧
    listar_conversiones WriteMode.ok (Disk.stored j) =
      (Except.error "AttributeError", Disk.stored j) ∧
    (∀ (now : List Nat) (r : List (String × PyVal)),
      agregar_conversion WriteMode.ok WriteMode.ok now (Disk.stored j) r =
        (Except.error "AttributeError", Disk.stored j)) ∧
    leer_todo WriteMode.ok Disk.malformed =
      (Except.ok emptyDoc, Disk.stored emptyDoc) := by
  cases j with
  | dict kvs => simp [isDictB] at hj
  | none => exact ⟨rfl, rfl, fun now r => rfl, rfl⟩
  | int n => exact ⟨rfl, rfl, fun now r => rfl, rfl⟩
  | str s => exact ⟨rfl, rfl, fun now r => rfl, rfl⟩
  | bytes b => exact ⟨rfl, rfl, fun now r => rfl, rfl⟩
  | list xs => exact ⟨rfl, rfl, fun now r => rfl, rfl⟩

/-- C10 witness: the theorem evaluated on a backing file holding the JSON
array `[]`. -/
theorem C10_witness :
    leer_todo WriteMode.ok (Disk.stored (PyVal.list [])) =
      (Except.ok (PyVal.list []), Disk.stored (PyVal.list [])) ∧
    listar_conversiones WriteMode.ok (Disk.stored (PyVal.list [])) =
      (Except.error "AttributeError", Disk.stored (PyVal.list [])) ∧
    (∀ (now : List Nat) (r : List (String × PyVal)),
      agregar_conversion WriteMode.ok WriteMode.ok now
          (Disk.stored (PyVal.list [])) r =
        (Except.error "AttributeError", Disk.stored (PyVal.list []))) ∧
    leer_todo WriteMode.ok Disk.malformed =
      (Except.ok emptyDoc, Disk.stored emptyDoc) :=
  C10_nonobject_not_repaired (PyVal.list []) rfl

/-- C1: for every sequence of successful `append` calls on an initially
empty store, the returned records' ids are exactly 1, 2, ..., N in call
order, and `listar_conversiones` afterwards returns those records in that
order. -/
theorem C1_append_ids_sequential (now : List Nat)
    (rs : List (List (String × PyVal)))
    (h : ∀ r ∈ rs, normOk r = true) :
    ∃ recs,
      appendSeq now (docOf []) rs = (Except.ok recs, docOf recs) ∧
      recs.map idOfRec =
        (List.range rs.length).map (fun i : Nat => some (1 + (i : Int))) ∧
      listar_conversiones WriteMode.ok (docOf recs) =
        (Except.ok (PyVal.list recs), docOf recs) := by
  obtain ⟨recs, hseq, hids⟩ := appendSeq_on_doc now rs [] h (Or.inl rfl)
  exact ⟨recs, by simpa using hseq, by simpa [nextIdOf_nil] using hids,
    listar_on_doc _ _⟩

/-- C1 witness: two appends on the empty store get ids 1 and 2 and are then
listed in order. -/
theorem C1_witness :
    ∃ recs,
      appendSeq [] (docOf [])
          [[("texto", PyVal.str [104, 105])], []] =
        (Except.ok recs, docOf recs) ∧
      recs.map idOfRec =
        (List.range 2).map (fun i : Nat => some (1 + (i : Int))) ∧
      listar_conversiones WriteMode.ok (docOf recs) =
        (Except.ok (PyVal.list recs), docOf recs) :=
  C1_append_ids_sequential [] [[("texto", PyVal.str [104, 105])], []]
    (by decide)

/-- C4: `_escribir_todo` returns `False` exactly on an I/O failure (and
never raises — it has no exception outcome), and on a well-formed document
with a normalizable input, `agregar_conversion` raises the storage error
`"No se pudo guardar la conversión en JSON"` exactly when `_escribir_todo`
returns `False`, the record then not having been returned as saved. -/
theorem C4_write_failure_signalled :
    (∀ (m : WriteMode) (d : Disk) (data : PyVal),
      (escribir_todo m d data).1 = false ↔ m ≠ WriteMode.ok) ∧
    (∀ (mw : WriteMode) (now : List Nat) (xs : List PyVal)
        (r : List (String × PyVal)),
      normOk r = true →
      (xs = [] ∨ (xs.getLast?.bind idOfRec).isSome) →
      ((agregar_conversion WriteMode.ok mw now (docOf xs) r).1 =
          Except.error "No se pudo guardar la conversión en JSON" ↔
        mw ≠ WriteMode.ok)) := by
  constructor
  · intro m d data
    cases m <;> simp [escribir_todo]
  · intro mw now xs r hn hl
    constructor
    · intro herr heq
      subst heq
      rw [agregar_on_doc now xs r hn hl] at herr
      simp at herr
    · intro hmw
      rw [agregar_write_fail mw hmw now xs r hn hl]

/-- C4 witness: a failing write on the empty store makes `append` raise the
storage error. -/
theorem C4_witness :
    (escribir_todo WriteMode.failOpen Disk.missing PyVal.none).1 = false ∧
    (agregar_conversion WriteMode.ok WriteMode.failOpen [] (docOf []) []).1 =
      Except.error "No se pudo guardar la conversión en JSON" :=
  ⟨(C4_write_failure_signalled.1 WriteMode.failOpen Disk.missing
      PyVal.none).mpr (by decide),
    (C4_write_failure_signalled.2 WriteMode.failOpen [] [] [] (by decide)
      (Or.inl rfl)).mpr (by decide)⟩

/-- C2 (counterexample): on a pre-existing document whose record ids are
`[2, 1]` (max existing id 2), `append` assigns the new record the id
`1 + 1 = 2` — the *last* record's id plus one, not `max + 1 = 3` — and the
document's ids become `[2, 1, 2]`, no longer unique. -/
theorem C2_counterexample :
    agregar_conversion WriteMode.ok WriteMode.ok []
        (docOf [PyVal.dict [("id", PyVal.int 2)],
          PyVal.dict [("id", PyVal.int 1)]]) [] =
      (Except.ok (registroFinal 2 [] PyVal.none PyVal.none []),
        docOf [PyVal.dict [("id", PyVal.int 2)],
          PyVal.dict [("id", PyVal.int 1)],
          registroFinal 2 [] PyVal.none PyVal.none []]) ∧
    idsOf [PyVal.dict [("id", PyVal.int 2)], PyVal.dict [("id", PyVal.int 1)],
        registroFinal 2 [] PyVal.none PyVal.none []] = [2, 1, 2] ∧
    ¬ ([2, 1, 2] : List Int).Nodup :=
  ⟨rfl, rfl, by decide⟩

/-- C2 (amended): `append` assigns the new record the id *last record's
id + 1* (1 when the list is empty).  On documents whose ids are strictly
increasing in list order — in particular every document produced only by
appends — this coincides with max + 1, and id values remain strictly
increasing and unique. -/
theorem C2_next_id_last_plus_one (now : List Nat) (xs : List PyVal)
    (r : List (String × PyVal)) (hn : normOk r = true)
    (hw : ∀ rec ∈ xs, (idOfRec rec).isSome) :
    agregar_conversion WriteMode.ok WriteMode.ok now (docOf xs) r =
      (Except.ok (expectedRec (nextIdOf xs) r now),
        docOf (xs ++ [expectedRec (nextIdOf xs) r now])) ∧
    idOfRec (expectedRec (nextIdOf xs) r now) = some (nextIdOf xs) ∧
    (List.Chain' (· < ·) (idsOf xs) →
      List.Chain' (· < ·) (idsOf (xs ++ [expectedRec (nextIdOf xs) r now])) ∧
      (idsOf (xs ++ [expectedRec (nextIdOf xs) r now])).Nodup) := by
  have hl := hl_of_wf xs hw
  refine ⟨agregar_on_doc now xs r hn hl, idOfRec_expectedRec _ _ _, ?_⟩
  intro hchain
  have hids : idsOf (xs ++ [expectedRec (nextIdOf xs) r now]) =
      idsOf xs ++ [nextIdOf xs] := by
    simp [idsOf, idOfRec_expectedRec]
  rw [hids]
  have hlast : ∀ x ∈ (idsOf xs).getLast?, x < nextIdOf xs := by
    intro x hx
    rw [idsOf, List.getLast?_map] at hx
    cases hgl : xs.getLast? with
    | none => rw [hgl] at hx; simp at hx
    | some rec =>
      rw [hgl] at hx
      simp only [Option.map_some', Option.mem_def, Option.some.injEq] at hx
      obtain ⟨m, hm⟩ :=
        Option.isSome_iff_exists.mp (hw rec (List.mem_of_getLast?_eq_some hgl))
      have hnext : nextIdOf xs = m + 1 := by simp [nextIdOf, hgl, hm]
      rw [hnext, ← hx, hm]
      simp
  have hchain2 : List.Chain' (· < ·) (idsOf xs ++ [nextIdOf xs]) := by
    rw [List.chain'_append]
    refine ⟨hchain, List.chain'_singleton _, ?_⟩
    intro x hx y hy
    simp only [List.head?_cons, Option.mem_def, Option.some.injEq] at hy
    subst hy
    exact hlast x hx
  exact ⟨hchain2,
    (List.chain'_iff_pairwise.mp hchain2).imp (fun h => ne_of_lt h)⟩

/-- C2 witness: the amended theorem on a document with ids `[1, 2]`. -/
theorem C2_witness :
    agregar_conversion WriteMode.ok WriteMode.ok []
        (docOf [PyVal.dict [("id", PyVal.int 1)],
          PyVal.dict [("id", PyVal.int 2)]]) [] =
      (Except.ok (expectedRec
          (nextIdOf [PyVal.dict [("id", PyVal.int 1)],
            PyVal.dict [("id", PyVal.int 2)]]) [] []),
        docOf ([PyVal.dict [("id", PyVal.int 1)],
          PyVal.dict [("id", PyVal.int 2)]] ++
          [expectedRec (nextIdOf [PyVal.dict [("id", PyVal.int 1)],
            PyVal.dict [("id", PyVal.int 2)]]) [] []])) ∧
    List.Chain' (· < ·) (idsOf ([PyVal.dict [("id", PyVal.int 1)],
        PyVal.dict [("id", PyVal.int 2)]] ++
        [expectedRec (nextIdOf [PyVal.dict [("id", PyVal.int 1)],
          PyVal.dict [("id", PyVal.int 2)]]) [] []])) := by
  obtain ⟨h1, h2, h3⟩ := C2_next_id_last_plus_one []
    [PyVal.dict [("id", PyVal.int 1)], PyVal.dict [("id", PyVal.int 2)]]
    [] (by decide) (by decide)
  refine ⟨h1, (h3 ?_).1⟩
  norm_num [idsOf, idOfRec, List.chain'_cons, List.chain'_singleton]

/-- C7: `obtener_por_id` returns the first record in list order whose id
equals the argument (the `List.find?` of the matching predicate, `None` when
absent, never an error), and when every id lies in `[1, n]`, the ids `0` and
anything above `n` yield the explicit absence `None`. -/
theorem C7_find_by_id (xs : List PyVal) (i n : Int)
    (hw : ∀ r ∈ xs, isDictB r = true) :
    obtener_por_id WriteMode.ok (docOf xs) i =
      (Except.ok ((xs.find? (fun r => idOfRec r == some i)).getD PyVal.none),
        docOf xs) ∧
    ((∀ r ∈ xs, ∃ m : Int, idOfRec r = some m ∧ 1 ≤ m ∧ m ≤ n) →
      (i = 0 ∨ n < i) →
      obtener_por_id WriteMode.ok (docOf xs) i =
        (Except.ok PyVal.none, docOf xs)) := by
  have h1 : obtener_por_id WriteMode.ok (docOf xs) i = (findById xs i, docOf xs) :=
    obtener_on_doc xs i
  rw [h1, findById_spec xs i hw]
  refine ⟨rfl, ?_⟩
  intro hb hi
  rw [find_id_out_of_range xs n i hb hi]
  rfl

/-- C7 witness: on records with ids `[1, 2]`, id 1 is found and id 3 (and 0)
are explicit absences. -/
theorem C7_witness :
    obtener_por_id WriteMode.ok
        (docOf [PyVal.dict [("id", PyVal.int 1)],
          PyVal.dict [("id", PyVal.int 2)]]) 1 =
      (Except.ok (([PyVal.dict [("id", PyVal.int 1)],
          PyVal.dict [("id", PyVal.int 2)]].find?
            (fun r => idOfRec r == some 1)).getD PyVal.none),
        docOf [PyVal.dict [("id", PyVal.int 1)],
          PyVal.dict [("id", PyVal.int 2)]]) ∧
    obtener_por_id WriteMode.ok
        (docOf [PyVal.dict [("id", PyVal.int 1)],
          PyVal.dict [("id", PyVal.int 2)]]) 3 =
      (Except.ok PyVal.none,
        docOf [PyVal.dict [("id", PyVal.int 1)],
          PyVal.dict [("id", PyVal.int 2)]]) := by
  have hmem : ∀ r ∈ [PyVal.dict [("id", PyVal.int 1)],
      PyVal.dict [("id", PyVal.int 2)]],
      ∃ m : Int, idOfRec r = some m ∧ 1 ≤ m ∧ m ≤ 2 := by
    intro r hr
    simp only [List.mem_cons, List.not_mem_nil, or_false] at hr
    rcases hr with rfl | rfl
    · exact ⟨1, rfl, by decide, by decide⟩
    · exact ⟨2, rfl, by decide, by decide⟩
  exact ⟨(C7_find_by_id _ 1 2 (by decide)).1,
    (C7_find_by_id _ 3 2 (by decide)).2 hmem (Or.inr (by decide))⟩

/-- C9: every record returned (and persisted) by a successful `append` on
the empty store is a dict with exactly the nine fields
`id, archivo_origen, ruta, texto, texto_encriptado, codigo_maquina,
duracion_segundos, info_audio, fecha` in that order; a key absent from the
input mapping becomes `None` in the record (the pass-through fields are the
input's `.get`; `codigo_maquina` carries its normalization and
`texto_encriptado` the successful result of its normalization, both of which
map an absent input — `None` from `.get` — to `None`), and any key outside
the nine is absent from the record. -/
theorem C9_record_shape (now : List Nat) (r : List (String × PyVal))
    (hn : normOk r = true) :
    ∃ kvs,
      agregar_conversion WriteMode.ok WriteMode.ok now (docOf []) r =
        (Except.ok (PyVal.dict kvs), docOf [PyVal.dict kvs]) ∧
      kvs.map Prod.fst = recFieldNames ∧
      (∀ k, k ∉ recFieldNames → kvs.lookup k = Option.none) ∧
      (∀ k ∈ (["archivo_origen", "ruta", "texto", "duracion_segundos",
          "info_audio"] : List String),
        kvs.lookup k = some ((r.lookup k).getD PyVal.none)) ∧
      kvs.lookup "codigo_maquina" =
        some (normCodigoMaquina ((r.lookup "codigo_maquina").getD PyVal.none)) ∧
      (∀ v, normTextoEncriptado ((r.lookup "texto_encriptado").getD PyVal.none) =
          Except.ok v → kvs.lookup "texto_encriptado" = some v) ∧
      (r.lookup "texto_encriptado" = Option.none →
        kvs.lookup "texto_encriptado" = some PyVal.none) ∧
      (r.lookup "codigo_maquina" = Option.none →
        kvs.lookup "codigo_maquina" = some PyVal.none) ∧
      kvs.lookup "id" = some (PyVal.int 1) ∧
      kvs.lookup "fecha" = some (PyVal.str now) := by
  obtain ⟨te, hte⟩ := normTE_of_normOk r hn
  refine ⟨[("id", PyVal.int 1),
    ("archivo_origen", rget r "archivo_origen"),
    ("ruta", rget r "ruta"),
    ("texto", rget r "texto"),
    ("texto_encriptado", te),
    ("codigo_maquina", normCodigoMaquina (rget r "codigo_maquina")),
    ("duracion_segundos", rget r "duracion_segundos"),
    ("info_audio", rget r "info_audio"),
    ("fecha", PyVal.str now)], ?_, rfl, ?_, ?_, rfl, ?_, ?_, ?_, rfl, rfl⟩
  · have hstep := agregar_on_doc now [] r hn (Or.inl rfl)
    have heq : expectedRec (nextIdOf []) r now = PyVal.dict
        [("id", PyVal.int 1),
          ("archivo_origen", rget r "archivo_origen"),
          ("ruta", rget r "ruta"),
          ("texto", rget r "texto"),
          ("texto_encriptado", te),
          ("codigo_maquina", normCodigoMaquina (rget r "codigo_maquina")),
          ("duracion_segundos", rget r "duracion_segundos"),
          ("info_audio", rget r "info_audio"),
          ("fecha", PyVal.str now)] := by
      simp [expectedRec, hte, registroFinal, nextIdOf_nil]
    rw [heq] at hstep
    simpa using hstep
  · intro k hk
    simp only [recFieldNames, List.mem_cons, List.not_mem_nil, or_false,
      not_or] at hk
    obtain ⟨h1, h2, h3, h4, h5, h6, h7, h8, h9⟩ := hk
    have e1 : (k == "id") = false := beq_eq_false_iff_ne.mpr h1
    have e2 : (k == "archivo_origen") = false := beq_eq_false_iff_ne.mpr h2
    have e3 : (k == "ruta") = false := beq_eq_false_iff_ne.mpr h3
    have e4 : (k == "texto") = false := beq_eq_false_iff_ne.mpr h4
    have e5 : (k == "texto_encriptado") = false := beq_eq_false_iff_ne.mpr h5
    have e6 : (k == "codigo_maquina") = false := beq_eq_false_iff_ne.mpr h6
    have e7 : (k == "duracion_segundos") = false := beq_eq_false_iff_ne.mpr h7
    have e8 : (k == "info_audio") = false := beq_eq_false_iff_ne.mpr h8
    have e9 : (k == "fecha") = false := beq_eq_false_iff_ne.mpr h9
    simp [List.lookup, e1, e2, e3, e4, e5, e6, e7, e8, e9]
  · intro k hk
    fin_cases hk <;> rfl
  · intro v hv
    have hrg : rget r "texto_encriptado" =
        (r.lookup "texto_encriptado").getD PyVal.none := rfl
    rw [← hrg, hte] at hv
    injection hv with hv
    subst hv
    rfl
  · intro h
    have hrg : rget r "texto_encriptado" = PyVal.none := by simp [rget, h]
    rw [hrg] at hte
    simp only [normTextoEncriptado, Except.ok.injEq] at hte
    subst hte
    rfl
  · intro h
    have hrg : rget r "codigo_maquina" = PyVal.none := by simp [rget, h]
    show some (normCodigoMaquina (rget r "codigo_maquina")) = some PyVal.none
    rw [hrg]
    rfl

/-- C9 witness: a record built from an input holding only `ruta` plus an
extra key (so both byte-normalized fields are absent). -/
theorem C9_witness :
    ∃ kvs,
      agregar_conversion WriteMode.ok WriteMode.ok [] (docOf [])
          [("ruta", PyVal.str [47]), ("extra", PyVal.int 7)] =
        (Except.ok (PyVal.dict kvs), docOf [PyVal.dict kvs]) ∧
      kvs.map Prod.fst = recFieldNames ∧
      (∀ k, k ∉ recFieldNames → kvs.lookup k = Option.none) ∧
      (∀ k ∈ (["archivo_origen", "ruta", "texto", "duracion_segundos",
          "info_audio"] : List String),
        kvs.lookup k = some (([("ruta", PyVal.str [47]),
          ("extra", PyVal.int 7)].lookup k).getD PyVal.none)) ∧
      kvs.lookup "codigo_maquina" =
        some (normCodigoMaquina (([("ruta", PyVal.str [47]),
          ("extra", PyVal.int 7)].lookup "codigo_maquina").getD PyVal.none)) ∧
      (∀ v, normTextoEncriptado (([("ruta", PyVal.str [47]),
          ("extra", PyVal.int 7)].lookup "texto_encriptado").getD PyVal.none) =
          Except.ok v → kvs.lookup "texto_encriptado" = some v) ∧
      ([("ruta", PyVal.str [47]),
          ("extra", PyVal.int 7)].lookup "texto_encriptado" = Option.none →
        kvs.lookup "texto_encriptado" = some PyVal.none) ∧
      ([("ruta", PyVal.str [47]),
          ("extra", PyVal.int 7)].lookup "codigo_maquina" = Option.none →
        kvs.lookup "codigo_maquina" = some PyVal.none) ∧
      kvs.lookup "id" = some (PyVal.int 1) ∧
      kvs.lookup "fecha" = some (PyVal.str []) :=
  C9_record_shape [] [("ruta", PyVal.str [47]), ("extra", PyVal.int 7)]
    (by decide)

/-- C6 (counterexample): a byte-valued `texto_encriptado` that is not valid
UTF-8 (the single byte 0xFF) makes `append` raise `UnicodeDecodeError`
instead of persisting a printable string, so not every byte-valued input is
normalized. -/
theorem C6_counterexample :
    agregar_conversion WriteMode.ok WriteMode.ok [] (docOf [])
        [("texto_encriptado", PyVal.bytes [255])] =
      (Except.error "UnicodeDecodeError", docOf []) := rfl

/-- C6 (amended): byte-valued `codigo_maquina` inputs are Base64-encoded to
a printable ASCII string that decodes back to exactly the original bytes;
byte-valued `texto_encriptado` inputs are UTF-8-decoded — this succeeds
exactly for valid UTF-8 byte strings, re-encoding the persisted string
recovers the original bytes, and invalid UTF-8 raises instead. -/
theorem C6_byte_round_trip (now tb s bs : List Nat)
    (htb : utf8Decode tb = some s) (hbs : ∀ x ∈ bs, x < 256) :
    agregar_conversion WriteMode.ok WriteMode.ok now (docOf [])
        [("texto_encriptado", PyVal.bytes tb),
          ("codigo_maquina", PyVal.bytes bs)] =
      (Except.ok (registroFinal 1
          [("texto_encriptado", PyVal.bytes tb),
            ("codigo_maquina", PyVal.bytes bs)]
          (PyVal.str s) (PyVal.str (b64Encode bs)) now),
        docOf [registroFinal 1
          [("texto_encriptado", PyVal.bytes tb),
            ("codigo_maquina", PyVal.bytes bs)]
          (PyVal.str s) (PyVal.str (b64Encode bs)) now]) ∧
    utf8Encode s = tb ∧
    b64Decode (b64Encode bs) = some bs ∧
    (∀ cp ∈ b64Encode bs, 33 ≤ cp ∧ cp ≤ 126) := by
  have hr : rget [("texto_encriptado", PyVal.bytes tb),
      ("codigo_maquina", PyVal.bytes bs)] "texto_encriptado" =
      PyVal.bytes tb := rfl
  have hr2 : rget [("texto_encriptado", PyVal.bytes tb),
      ("codigo_maquina", PyVal.bytes bs)] "codigo_maquina" =
      PyVal.bytes bs := rfl
  have hn : normOk [("texto_encriptado", PyVal.bytes tb),
      ("codigo_maquina", PyVal.bytes bs)] = true := by
    simp [normOk, hr, htb]
  have hstep := agregar_on_doc now [] _ hn (Or.inl rfl)
  have heq : expectedRec (nextIdOf [])
      [("texto_encriptado", PyVal.bytes tb),
        ("codigo_maquina", PyVal.bytes bs)] now =
      registroFinal 1
        [("texto_encriptado", PyVal.bytes tb),
          ("codigo_maquina", PyVal.bytes bs)]
        (PyVal.str s) (PyVal.str (b64Encode bs)) now := by
    simp [expectedRec, normTextoEncriptado, normCodigoMaquina, hr, hr2, htb,
      nextIdOf_nil]
  rw [heq] at hstep
  exact ⟨by simpa using hstep, utf8Encode_utf8Decode tb s htb,
    b64Decode_b64Encode bs hbs, b64Encode_printable bs hbs⟩

/-- C6 witness: the amended theorem on the UTF-8 bytes of `"hi"` and the raw
bytes `[0, 255]`. -/
theorem C6_witness :
    agregar_conversion WriteMode.ok WriteMode.ok [] (docOf [])
        [("texto_encriptado", PyVal.bytes [104, 105]),
          ("codigo_maquina", PyVal.bytes [0, 255])] =
      (Except.ok (registroFinal 1
          [("texto_encriptado", PyVal.bytes [104, 105]),
            ("codigo_maquina", PyVal.bytes [0, 255])]
          (PyVal.str [104, 105]) (PyVal.str (b64Encode [0, 255])) []),
        docOf [registroFinal 1
          [("texto_encriptado", PyVal.bytes [104, 105]),
            ("codigo_maquina", PyVal.bytes [0, 255])]
          (PyVal.str [104, 105]) (PyVal.str (b64Encode [0, 255])) []]) ∧
    utf8Encode [104, 105] = [104, 105] ∧
    b64Decode (b64Encode [0, 255]) = some [0, 255] ∧
    (∀ cp ∈ b64Encode [0, 255], 33 ≤ cp ∧ cp ≤ 126) :=
  C6_byte_round_trip [] [104, 105] [104, 105] [0, 255] (by decide) (by decide)
